import Mathlib

/-!
# Verification of the serde transport layer (`src/tarpc/src/serde_transport.rs`)

This file shallowly embeds the serde-based `Transport` of the repository:
a typed duplex channel built by composing a length-delimited framing
substrate with a pluggable serializer/deserializer (codec), plus the
TCP convenience layer (`tcp::connect`, `tcp::listen`, `Incoming`).

The embedding has two levels:

* an *abstract* level translating the `Stream`/`Sink` impls for
  `Transport` (lines 33–91 of the source): pure functions mapping the
  inner framed-serde stream's poll outcome to the transport's outcome,
  with the uniform `io::Error::new(io::ErrorKind::Other, e)` wrapping;
* a *concrete* byte-level pipeline: the length-delimited framing
  substrate and a JSON string codec are external collaborators of the
  repository (tokio-util's `LengthDelimitedCodec`, tokio-serde's JSON
  format), so they are modelled from the spec's description of their
  observable contract (4-byte big-endian length prefix, maximum frame
  size, quoted JSON text), and composed exactly as the source composes
  them.
-/

namespace SerdeTransport

/-- The outcome of polling an asynchronous operation
(`std::task::Poll`): either not ready yet, or ready with a value. -/
inductive Poll (α : Type u) where
  | pending : Poll α
  | ready (a : α) : Poll α
deriving DecidableEq, Repr

/-- The error kinds of `std::io::ErrorKind` that this layer can mention.
`other` models `io::ErrorKind::Other`; the remaining constructors stand
for every other kind (so "the kind is `other`" is a contentful claim). -/
inductive IoErrorKind where
  | other
  | invalidData
  | connectionReset
  | brokenPipe
  | addrInUse
  | connectionRefused
deriving DecidableEq, Repr

/-- `std::io::Error`: an error kind together with the wrapped original
error (the nested cause, retrievable via `io::Error::get_ref`). -/
structure IoError (ε : Type u) where
  kind : IoErrorKind
  cause : ε
deriving DecidableEq, Repr

/-- `io::Error::new(io::ErrorKind::Other, e)` — the single unified
wrapping applied by the transport to every codec or framing error. -/
def ioOther (e : ε) : IoError ε := ⟨IoErrorKind.other, e⟩

/-- `<Transport as Stream>::poll_next` (source lines 44–53), as a pure
function of the inner framed-serde stream's poll outcome: `Pending` and
`Ready(None)` pass through, a decoded value passes through unchanged,
and an inner error `e` becomes `io::Error::new(ErrorKind::Other, e)`. -/
def Transport.pollNext (inner : Poll (Option (Except ε α))) :
    Poll (Option (Except (IoError ε) α)) :=
  match inner with
  | Poll.pending => Poll.pending
  | Poll.ready none => Poll.ready none
  | Poll.ready (some (Except.ok next)) => Poll.ready (some (Except.ok next))
  | Poll.ready (some (Except.error e)) => Poll.ready (some (Except.error (ioOther e)))

/-- `convert` (source lines 87–91): maps a `Poll<Result<(), E>>` from
the inner sink into a `Poll<io::Result<()>>`, wrapping any error under
`io::ErrorKind::Other`. -/
def convert (poll : Poll (Except ε Unit)) : Poll (Except (IoError ε) Unit) :=
  match poll with
  | Poll.pending => Poll.pending
  | Poll.ready (Except.ok ()) => Poll.ready (Except.ok ())
  | Poll.ready (Except.error e) => Poll.ready (Except.error (ioOther e))

/-- `<Transport as Sink>::start_send` (source lines 71–76): the inner
sink's result with any error wrapped under `io::ErrorKind::Other`. -/
def Transport.startSend (inner : Except ε Unit) : Except (IoError ε) Unit :=
  match inner with
  | Except.ok () => Except.ok ()
  | Except.error e => Except.error (ioOther e)

/-- `<Transport as Sink>::poll_ready` (source lines 67–69):
`convert(inner.poll_ready(cx))`. -/
def Transport.pollReady (inner : Poll (Except ε Unit)) : Poll (Except (IoError ε) Unit) :=
  convert inner

/-- `<Transport as Sink>::poll_flush` (source lines 78–80):
`convert(inner.poll_flush(cx))`. -/
def Transport.pollFlush (inner : Poll (Except ε Unit)) : Poll (Except (IoError ε) Unit) :=
  convert inner

/-- `<Transport as Sink>::poll_close` (source lines 82–84):
`convert(inner.poll_close(cx))`. -/
def Transport.pollClose (inner : Poll (Except ε Unit)) : Poll (Except (IoError ε) Unit) :=
  convert inner

/-! ## The concrete byte-level pipeline

The framing substrate (tokio-util's `LengthDelimitedCodec`) and the JSON
codec (tokio-serde's `SymmetricalJson`) are external collaborators whose
code is not part of this repository; they are modelled from the spec's
description of their observable contract and composed exactly as the
source composes them. -/

/-- Modelled from the spec: the configuration of the length-delimited
framing substrate (tokio-util's `LengthDelimitedCodec`): the size of the
length prefix in bytes and the maximum allowed frame length. -/
structure LengthDelimitedCodec where
  lengthFieldLen : Nat
  maxFrameLen : Nat
deriving DecidableEq, Repr

/-- Modelled from the spec: `LengthDelimitedCodec::new()` — the default
configuration used by `Transport::from`: a fixed 4-byte length prefix
and the default 8 MiB maximum frame length. -/
def LengthDelimitedCodec.new : LengthDelimitedCodec :=
  ⟨4, 8 * 1024 * 1024⟩

/-- The big-endian base-256 digits of `n`, `k` bytes wide (most
significant byte first). -/
def beBytes : Nat → Nat → List Nat
  | 0, _ => []
  | k + 1, n => n / 256 ^ k % 256 :: beBytes k n

/-- The value denoted by a big-endian byte list. -/
def beVal (l : List Nat) : Nat :=
  l.foldl (fun acc b => acc * 256 + b) 0

/-- Errors of the framing substrate. -/
inductive FrameError where
  | frameTooLong (n : Nat)
  | incompleteFrame
deriving DecidableEq, Repr

/-- The outcome of asking the framing substrate for the next frame when
the underlying stream delivers a fixed byte sequence and then EOF. -/
inductive FrameRead where
  | eof
  | frame (payload rest : List Nat)
  | err (e : FrameError)
deriving DecidableEq, Repr

/-- Modelled from the spec: the framing substrate's read side at EOF.
An empty buffer is a clean end-of-stream; fewer bytes than a whole
length-prefixed frame is an error (a partial frame pending at EOF); a
length prefix exceeding the configured maximum is an error; otherwise
one frame of exactly the announced payload length is split off. -/
def LengthDelimitedCodec.decodeEof (cfg : LengthDelimitedCodec) (buf : List Nat) : FrameRead :=
  if buf = [] then FrameRead.eof
  else if buf.length < cfg.lengthFieldLen then FrameRead.err FrameError.incompleteFrame
  else
    let n := beVal (buf.take cfg.lengthFieldLen)
    if cfg.maxFrameLen < n then FrameRead.err (FrameError.frameTooLong n)
    else if buf.length < cfg.lengthFieldLen + n then FrameRead.err FrameError.incompleteFrame
    else FrameRead.frame ((buf.drop cfg.lengthFieldLen).take n) ((buf.drop cfg.lengthFieldLen).drop n)

/-- Modelled from the spec: the framing substrate's write side — a
payload of `n` bytes is preceded by exactly the big-endian encoding of
`n` in the configured prefix width; payloads above the configured
maximum are rejected. -/
def LengthDelimitedCodec.encode (cfg : LengthDelimitedCodec) (payload : List Nat) :
    Except FrameError (List Nat) :=
  if cfg.maxFrameLen < payload.length then Except.error (FrameError.frameTooLong payload.length)
  else Except.ok (beBytes cfg.lengthFieldLen payload.length ++ payload)

/-- A serializer/deserializer pair (the codec strategy injected into the
transport): values of type `α` to and from byte lists, each direction
fallible with error type `ε`. -/
structure SerdeCodec (α : Type) (ε : Type) where
  serialize : α → Except ε (List Nat)
  deserialize : List Nat → Except ε α

/-- The error produced inside the composed framed-serde stream: either a
framing-substrate error or a codec error. The transport wraps both the
same way. -/
inductive TransportError (ε : Type) where
  | framing (e : FrameError)
  | codec (e : ε)
deriving DecidableEq, Repr

/-- The `Transport` struct (source lines 20–24): the framing substrate's
configuration and write buffer, the codec bound to it, and the
underlying stream `S` it exclusively owns. On the read side `S` is the
byte sequence the stream delivers before EOF (the test's `Cursor`); on
the write side it is the log of bytes flushed to the stream (the test's
`Vec<u8>`). -/
structure Transport (S : Type) (Codec : Type) where
  framing : LengthDelimitedCodec
  writeBuf : List Nat
  codec : Codec
  stream : S

/-- `impl From<(S, Codec)> for Transport` (source lines 93–105):
`SerdeFramed::new(Framed::new(inner, LengthDelimitedCodec::new()), codec)`
— wrap the raw stream in the default length-delimited framing and bind
the codec; nothing is read from or written to the stream. -/
def Transport.fromStreamCodec (s : S) (c : Codec) : Transport S Codec :=
  ⟨LengthDelimitedCodec.new, [], c, s⟩

/-- `Transport::get_ref` (source lines 28–30): the wrapped raw stream,
by reference. -/
def Transport.get_ref (t : Transport S Codec) : S := t.stream

/-- The transport's read side over concrete bytes: the composition of
`decodeEof` (framing substrate), the codec's `deserialize`, and the
source's `poll_next` error mapping (lines 44–53): clean EOF passes
through as end-of-stream, a decoded value passes through unchanged, any
inner error is wrapped as `io::Error::new(ErrorKind::Other, e)`. Returns
the poll outcome and the transport with the consumed bytes removed. -/
def Transport.pollNextBytes (t : Transport (List Nat) (SerdeCodec α ε)) :
    Poll (Option (Except (IoError (TransportError ε)) α)) × Transport (List Nat) (SerdeCodec α ε) :=
  match t.framing.decodeEof t.stream with
  | FrameRead.eof => (Poll.ready none, t)
  | FrameRead.err e =>
    (Poll.ready (some (Except.error (ioOther (TransportError.framing e)))), t)
  | FrameRead.frame payload rest =>
    match t.codec.deserialize payload with
    | Except.ok v =>
      (Poll.ready (some (Except.ok v)), ⟨t.framing, t.writeBuf, t.codec, rest⟩)
    | Except.error e =>
      (Poll.ready (some (Except.error (ioOther (TransportError.codec e)))),
       ⟨t.framing, t.writeBuf, t.codec, rest⟩)

/-- The transport's `start_send` over concrete bytes: serialize the
value with the codec, length-prefix the payload with the framing
substrate, and queue the frame in the substrate's write buffer; a
failure in either layer is wrapped as
`io::Error::new(ErrorKind::Other, e)` (source lines 71–76). No bytes
reach the underlying stream yet. -/
def Transport.startSendBytes (t : Transport S (SerdeCodec α ε)) (v : α) :
    Except (IoError (TransportError ε)) (Transport S (SerdeCodec α ε)) :=
  match t.codec.serialize v with
  | Except.error e => Except.error (ioOther (TransportError.codec e))
  | Except.ok bs =>
    match t.framing.encode bs with
    | Except.error fe => Except.error (ioOther (TransportError.framing fe))
    | Except.ok frameBytes => Except.ok ⟨t.framing, t.writeBuf ++ frameBytes, t.codec, t.stream⟩

/-- The transport's `poll_flush` over concrete bytes: drive all queued
frame bytes out to the underlying stream (the write log `S = List Nat`),
emptying the write buffer (source lines 78–80). -/
def Transport.pollFlushBytes (t : Transport (List Nat) (SerdeCodec α ε)) :
    Poll (Except (IoError (TransportError ε)) (Transport (List Nat) (SerdeCodec α ε))) :=
  Poll.ready (Except.ok ⟨t.framing, [], t.codec, t.stream ++ t.writeBuf⟩)

/-! ## The JSON text codec

Modelled from the spec: the "text-based codec" of the concrete scenario
is tokio-serde's symmetrical JSON format applied to `String` values: a
value is serialized as a JSON string (quoted, with the standard JSON
escapes, UTF-8 encoded) and deserialized by parsing exactly one JSON
string that must consume the whole payload. -/

/-- The byte of the lowercase hex digit for `n < 16`. -/
def hexDigit (n : Nat) : Nat :=
  if n < 10 then 48 + n else 87 + n

/-- The UTF-8 encoding of the Unicode scalar value `n`. -/
def utf8Encode (n : Nat) : List Nat :=
  if n < 128 then [n]
  else if n < 2048 then [192 + n / 64, 128 + n % 64]
  else if n < 65536 then [224 + n / 4096, 128 + n / 64 % 64, 128 + n % 64]
  else [240 + n / 262144, 128 + n / 4096 % 64, 128 + n / 64 % 64, 128 + n % 64]

/-- The bytes a character contributes to a JSON string body: the
two-character escapes for quote, backslash and the common control
characters, a `\u00XX` escape for the remaining control characters, and
the plain UTF-8 encoding otherwise. -/
def jsonEscapeChar (c : Char) : List Nat :=
  let n := c.toNat
  if n = 34 then [92, 34]
  else if n = 92 then [92, 92]
  else if n = 8 then [92, 98]
  else if n = 9 then [92, 116]
  else if n = 10 then [92, 110]
  else if n = 12 then [92, 102]
  else if n = 13 then [92, 114]
  else if n < 32 then [92, 117, 48, 48, hexDigit (n / 16), hexDigit (n % 16)]
  else utf8Encode n

/-- Errors of the JSON string codec. -/
inductive JsonError where
  | notAString
  | unterminated
  | badEscape
  | controlChar
  | badUtf8
  | badCodepoint
  | trailingBytes
deriving DecidableEq, Repr

/-- The value of a hex-digit byte, if it is one. -/
def hexVal (b : Nat) : Option Nat :=
  if 48 ≤ b ∧ b ≤ 57 then some (b - 48)
  else if 65 ≤ b ∧ b ≤ 70 then some (b - 55)
  else if 97 ≤ b ∧ b ≤ 102 then some (b - 87)
  else none

/-- A `Char` from a codepoint, rejecting non-scalar values. -/
def charOfCodepoint (n : Nat) : Except JsonError Char :=
  if n.isValidChar then Except.ok (Char.ofNat n) else Except.error JsonError.badCodepoint

/-- Parse the body of a JSON string (the bytes after the opening
quote) up to and including the closing quote, returning the decoded
characters and the bytes that follow the closing quote. -/
def jsonStringBody : List Nat → Except JsonError (List Char × List Nat)
  | [] => Except.error JsonError.unterminated
  | 34 :: rest => Except.ok ([], rest)
  | 92 :: [] => Except.error JsonError.badEscape
  | 92 :: e :: rest =>
    if e = 34 ∨ e = 92 ∨ e = 47 then
      (fun p => (Char.ofNat e :: p.1, p.2)) <$> jsonStringBody rest
    else if e = 98 then (fun p => (Char.ofNat 8 :: p.1, p.2)) <$> jsonStringBody rest
    else if e = 102 then (fun p => (Char.ofNat 12 :: p.1, p.2)) <$> jsonStringBody rest
    else if e = 110 then (fun p => (Char.ofNat 10 :: p.1, p.2)) <$> jsonStringBody rest
    else if e = 114 then (fun p => (Char.ofNat 13 :: p.1, p.2)) <$> jsonStringBody rest
    else if e = 116 then (fun p => (Char.ofNat 9 :: p.1, p.2)) <$> jsonStringBody rest
    else if e = 117 then
      match rest with
      | h1 :: h2 :: h3 :: h4 :: rest2 =>
        match hexVal h1, hexVal h2, hexVal h3, hexVal h4 with
        | some a, some b, some c, some d =>
          match charOfCodepoint (((a * 16 + b) * 16 + c) * 16 + d) with
          | Except.error er => Except.error er
          | Except.ok ch => (fun p => (ch :: p.1, p.2)) <$> jsonStringBody rest2
        | _, _, _, _ => Except.error JsonError.badEscape
      | _ => Except.error JsonError.badEscape
    else Except.error JsonError.badEscape
  | b :: rest =>
    if b < 32 then Except.error JsonError.controlChar
    else if b < 128 then (fun p => (Char.ofNat b :: p.1, p.2)) <$> jsonStringBody rest
    else if 194 ≤ b ∧ b ≤ 223 then
      match rest with
      | b2 :: rest2 =>
        if 128 ≤ b2 ∧ b2 ≤ 191 then
          match charOfCodepoint ((b - 192) * 64 + (b2 - 128)) with
          | Except.error er => Except.error er
          | Except.ok ch => (fun p => (ch :: p.1, p.2)) <$> jsonStringBody rest2
        else Except.error JsonError.badUtf8
      | _ => Except.error JsonError.badUtf8
    else if 224 ≤ b ∧ b ≤ 239 then
      match rest with
      | b2 :: b3 :: rest2 =>
        if (128 ≤ b2 ∧ b2 ≤ 191) ∧ (128 ≤ b3 ∧ b3 ≤ 191) then
          match charOfCodepoint (((b - 224) * 64 + (b2 - 128)) * 64 + (b3 - 128)) with
          | Except.error er => Except.error er
          | Except.ok ch => (fun p => (ch :: p.1, p.2)) <$> jsonStringBody rest2
        else Except.error JsonError.badUtf8
      | _ => Except.error JsonError.badUtf8
    else if 240 ≤ b ∧ b ≤ 244 then
      match rest with
      | b2 :: b3 :: b4 :: rest2 =>
        if (128 ≤ b2 ∧ b2 ≤ 191) ∧ (128 ≤ b3 ∧ b3 ≤ 191) ∧ (128 ≤ b4 ∧ b4 ≤ 191) then
          match charOfCodepoint
              ((((b - 240) * 64 + (b2 - 128)) * 64 + (b3 - 128)) * 64 + (b4 - 128)) with
          | Except.error er => Except.error er
          | Except.ok ch => (fun p => (ch :: p.1, p.2)) <$> jsonStringBody rest2
        else Except.error JsonError.badUtf8
      | _ => Except.error JsonError.badUtf8
    else Except.error JsonError.badUtf8

/-- Deserialize a payload as exactly one JSON string consuming the
whole payload. -/
def jsonDeserializeString (bs : List Nat) : Except JsonError String :=
  match bs with
  | 34 :: rest =>
    match jsonStringBody rest with
    | Except.error e => Except.error e
    | Except.ok (cs, []) => Except.ok (String.mk cs)
    | Except.ok (_, _ :: _) => Except.error JsonError.trailingBytes
  | _ => Except.error JsonError.notAString

/-- Serialize a string as a JSON string: opening quote, escaped body,
closing quote. -/
def jsonSerializeString (s : String) : Except JsonError (List Nat) :=
  Except.ok (34 :: s.data.flatMap jsonEscapeChar ++ [34])

/-- Modelled from the spec: the symmetrical JSON codec for `String`
values (tokio-serde's `SymmetricalJson::<String>::default()`). -/
def symmetricalJson : SerdeCodec String JsonError :=
  ⟨jsonSerializeString, jsonDeserializeString⟩

/-- The fixed 28 input bytes of the concrete scenario:
`00 00 00 18` (length prefix, 0x18 = 24) followed by the 24 payload
bytes `"Test one, check check."` (opening quote, 22 ASCII characters,
closing quote). -/
def testFrameBytes : List Nat :=
  [0x00, 0x00, 0x00, 0x18,
   0x22, 0x54, 0x65, 0x73, 0x74, 0x20, 0x6F, 0x6E, 0x65, 0x2C, 0x20, 0x63,
   0x68, 0x65, 0x63, 0x6B, 0x20, 0x63, 0x68, 0x65, 0x63, 0x6B, 0x2E, 0x22]

/-! ## The TCP module (`mod tcp`, source lines 107–217)

`TcpStream`/`TcpListener` are external collaborators (tokio); a
connection is modelled as an opaque identifier (`Nat`) and the listener
as the sequence of outcomes its successive accept polls will deliver.
The caller-supplied codec factory `codec_fn` is a zero-argument closure
invoked afresh for every accepted connection; instance identity is
modelled by tagging each constructed codec with the number of the
factory invocation that constructed it. -/

namespace tcp

/-- Modelled from the spec: one codec instance produced by the
caller-supplied factory. `mkIndex` is the factory invocation that
constructed it: distinct invocations construct distinct, independent
instances. -/
structure CodecInstance (C : Type) where
  mkIndex : Nat
  val : C
deriving DecidableEq, Repr

/-- Modelled from the spec: a bound TCP listener. `polls` is the
sequence of outcomes successive accept polls will deliver — `some (ok
c)` a newly accepted connection `c`, `some (error e)` an accept
failure, `none` the inner incoming stream reporting termination; an
exhausted list means the poll is pending. `localAddrResult` is what
`TcpListener::local_addr` returns. -/
structure TcpListenerM (ε : Type) where
  polls : List (Option (Except ε Nat))
  localAddrResult : Except ε Nat

/-- The `Incoming` struct (source lines 186–193): the listener, the
local address captured at bind time, the codec factory (modelled as
what it constructs on its `k`-th invocation), and the number of factory
invocations made so far. -/
structure Incoming (ε : Type) (C : Type) where
  listener : TcpListenerM ε
  localAddr : Nat
  codecFn : Nat → C
  invocations : Nat

/-- `Incoming::local_addr` (source lines 195–199): the address being
listened on, as captured at bind time. -/
def Incoming.local_addr (inc : Incoming ε C) : Nat := inc.localAddr

/-- `<Incoming as Stream>::poll_next` (source lines 211–215): poll the
listener's incoming stream; `?` propagates an accept error as one
yielded `Err` item (unwrapped — accept errors are already `io::Error`s),
`ready!` propagates pending, a terminated inner stream yields `None`,
and a freshly accepted connection is wrapped by
`new(conn, (self.codec_fn)())` — a `Transport` built from the connection
and a fresh invocation of the codec factory. -/
def Incoming.pollNext (inc : Incoming ε C) :
    Poll (Option (Except ε (Transport Nat (CodecInstance C)))) × Incoming ε C :=
  match inc.listener.polls with
  | [] => (Poll.pending, inc)
  | none :: rest =>
    (Poll.ready none,
     ⟨⟨rest, inc.listener.localAddrResult⟩, inc.localAddr, inc.codecFn, inc.invocations⟩)
  | some (Except.error e) :: rest =>
    (Poll.ready (some (Except.error e)),
     ⟨⟨rest, inc.listener.localAddrResult⟩, inc.localAddr, inc.codecFn, inc.invocations⟩)
  | some (Except.ok conn) :: rest =>
    (Poll.ready (some (Except.ok
       (Transport.fromStreamCodec conn ⟨inc.invocations, inc.codecFn inc.invocations⟩))),
     ⟨⟨rest, inc.listener.localAddrResult⟩, inc.localAddr, inc.codecFn, inc.invocations + 1⟩)

/-- `tcp::listen` (source lines 165–183): bind a listener at the
address (`TcpListener::bind(addr).await?` — modelled by the bind
outcome), read its local address (`listener.local_addr()?`), and on
success return the `Incoming` handle holding the listener, the codec
factory and the captured address. Either failure is returned
immediately and no handle is produced. -/
def listen (bindResult : Except ε (TcpListenerM ε)) (codecFn : Nat → C) :
    Except ε (Incoming ε C) :=
  match bindResult with
  | Except.error e => Except.error e
  | Except.ok listener =>
    match listener.localAddrResult with
    | Except.error e => Except.error e
    | Except.ok a => Except.ok ⟨listener, a, codecFn, 0⟩

/-- `tcp::connect` (source lines 151–162):
`Ok(new(TcpStream::connect(addr).await?, codec))` — a single connection
attempt (modelled by its outcome); on success the connection is wrapped
into a `Transport` with the given codec, on failure the error is
returned once, unchanged. -/
def connect (connectResult : Except ε Nat) (codec : C) :
    Except ε (Transport Nat C) :=
  match connectResult with
  | Except.error e => Except.error e
  | Except.ok s => Except.ok (Transport.fromStreamCodec s codec)

/-- `b` is reachable from `a` by zero or more polls of the
listener-derived sequence. -/
inductive Reaches : Incoming ε C → Incoming ε C → Prop where
  | refl (a : Incoming ε C) : Reaches a a
  | step (a b c : Incoming ε C) : a.pollNext.2 = b → Reaches b c → Reaches a c

end tcp

/-! ## Helper lemmas -/

theorem beBytes_length (k n : Nat) : (beBytes k n).length = k := by
  induction k generalizing n with
  | zero => rfl
  | succ k ih => simp [beBytes, ih]

theorem beVal_beBytes4 (n : Nat) (h : n < 4294967296) : beVal (beBytes 4 n) = n := by
  show beVal [n / 256 ^ 3 % 256, n / 256 ^ 2 % 256, n / 256 ^ 1 % 256, n / 256 ^ 0 % 256] = n
  show ((((0 * 256 + n / 256 ^ 3 % 256) * 256 + n / 256 ^ 2 % 256) * 256
      + n / 256 ^ 1 % 256) * 256 + n / 256 ^ 0 % 256) = n
  have h3 : 256 ^ 3 = 16777216 := by norm_num
  have h2 : 256 ^ 2 = 65536 := by norm_num
  have h1 : 256 ^ 1 = 256 := by norm_num
  have h0 : 256 ^ 0 = 1 := by norm_num
  rw [h3, h2, h1, h0]
  omega

theorem tcp.pollNext_invocations_le (a : tcp.Incoming ε C) :
    a.invocations ≤ a.pollNext.2.invocations := by
  obtain ⟨⟨polls, la⟩, addr, f, k⟩ := a
  match polls with
  | [] => exact Nat.le_refl _
  | none :: rest => exact Nat.le_refl _
  | some (Except.error e) :: rest => exact Nat.le_refl _
  | some (Except.ok conn) :: rest => exact Nat.le_succ _

theorem tcp.reaches_invocations_le (a b : tcp.Incoming ε C) (h : tcp.Reaches a b) :
    a.invocations ≤ b.invocations := by
  induction h with
  | refl a => exact Nat.le_refl _
  | step a b c hab _ ih =>
    exact Nat.le_trans (hab ▸ tcp.pollNext_invocations_le a) ih

theorem decodeEof_encoded_frame (bs : List Nat)
    (hlen : bs.length ≤ LengthDelimitedCodec.new.maxFrameLen) :
    LengthDelimitedCodec.new.decodeEof (beBytes 4 bs.length ++ bs) = FrameRead.frame bs [] := by
  have hfl : (beBytes 4 bs.length).length = 4 := beBytes_length 4 bs.length
  have hmax : LengthDelimitedCodec.new.maxFrameLen = 8388608 := rfl
  rw [hmax] at hlen
  have h32 : bs.length < 4294967296 := by omega
  have htake : (beBytes 4 bs.length ++ bs).take 4 = beBytes 4 bs.length := List.take_left' hfl
  have hdrop : (beBytes 4 bs.length ++ bs).drop 4 = bs := List.drop_left' hfl
  have hval : beVal (beBytes 4 bs.length) = bs.length := beVal_beBytes4 _ h32
  have hlength : (beBytes 4 bs.length ++ bs).length = 4 + bs.length := by
    simp [hfl]
  have hnil : beBytes 4 bs.length ++ bs ≠ [] := by
    intro h
    rw [h] at hlength
    simp at hlength
    omega
  show LengthDelimitedCodec.decodeEof ⟨4, 8388608⟩ (beBytes 4 bs.length ++ bs) = _
  unfold LengthDelimitedCodec.decodeEof
  rw [if_neg hnil]
  simp only [hlength, htake, hdrop, hval]
  rw [if_neg (by omega), if_neg (by omega), if_neg (by omega)]
  rw [List.take_length, List.drop_length]

theorem tcp.pollNext_ok_characterization (a : tcp.Incoming ε C)
    (t : Transport Nat (tcp.CodecInstance C))
    (h : a.pollNext.1 = Poll.ready (some (Except.ok t))) :
    t.codec.mkIndex = a.invocations ∧ a.pollNext.2.invocations = a.invocations + 1 := by
  obtain ⟨⟨polls, la⟩, addr, f, k⟩ := a
  match polls with
  | [] => exact absurd h (by simp [tcp.Incoming.pollNext])
  | none :: rest => exact absurd h (by simp [tcp.Incoming.pollNext])
  | some (Except.error e) :: rest => exact absurd h (by simp [tcp.Incoming.pollNext])
  | some (Except.ok conn) :: rest =>
    refine ⟨?_, rfl⟩
    have ht : t = Transport.fromStreamCodec conn ⟨k, f k⟩ := by
      have := h
      simp only [tcp.Incoming.pollNext] at this
      injection this with h1
      injection h1 with h2
      injection h2 with h3
      exact h3.symm
    rw [ht]
    rfl

/-! ## Claim theorems -/

/-- C1: reading one value from a transport whose underlying stream
delivers exactly the bytes `00 00 00 18 22 54 65 73 74 20 6F 6E 65 2C
20 63 68 65 63 6B 20 63 68 65 63 6B 2E 22`, configured with the JSON
text codec, yields the string "Test one, check check."; and submitting
that same string via `start_send` followed by `poll_flush` writes
exactly those same bytes to the underlying stream. -/
theorem stream_and_sink_concrete_scenario :
    (Transport.pollNextBytes (Transport.fromStreamCodec testFrameBytes symmetricalJson)).1
      = Poll.ready (some (Except.ok "Test one, check check.")) ∧
    Transport.startSendBytes (Transport.fromStreamCodec ([] : List Nat) symmetricalJson)
        "Test one, check check."
      = Except.ok ⟨LengthDelimitedCodec.new, testFrameBytes, symmetricalJson, []⟩ ∧
    Transport.pollFlushBytes
        ⟨LengthDelimitedCodec.new, testFrameBytes, symmetricalJson, ([] : List Nat)⟩
      = Poll.ready (Except.ok (Transport.fromStreamCodec testFrameBytes symmetricalJson)) :=
  ⟨rfl, rfl, rfl⟩

/-- C2: every error from the codec (serialize failure in `start_send`,
deserialize failure in `poll_next`) or from the framing substrate (in
`poll_next`, `poll_ready`, `poll_flush`, `poll_close`) is returned as
the single unified transport I/O error `io::Error::new(ErrorKind::Other,
e)`, which wraps the original error `e` as a retrievable nested cause;
no error is dropped. -/
theorem errors_unified_with_retrievable_cause (ε α : Type) (e : ε) :
    (Transport.pollNext (Poll.ready (some (Except.error e)))
        : Poll (Option (Except (IoError ε) α)))
      = Poll.ready (some (Except.error (ioOther e))) ∧
    Transport.startSend (Except.error e) = Except.error (ioOther e) ∧
    Transport.pollReady (Poll.ready (Except.error e)) = Poll.ready (Except.error (ioOther e)) ∧
    Transport.pollFlush (Poll.ready (Except.error e)) = Poll.ready (Except.error (ioOther e)) ∧
    Transport.pollClose (Poll.ready (Except.error e)) = Poll.ready (Except.error (ioOther e)) ∧
    (ioOther e).cause = e :=
  ⟨rfl, rfl, rfl, rfl, rfl, rfl⟩

/-- C3: each poll of the transport's read side yields exactly one of
four outcomes, each determined by the inner framed stream's outcome:
pending iff the inner stream is pending, terminal end-of-stream iff the
inner stream ends, a decoded value passed through unchanged iff the
inner stream yields that value, and a unified I/O-level error iff the
inner stream yields an error (which it wraps). -/
theorem pollNext_four_outcome_characterization (ε α : Type)
    (inner : Poll (Option (Except ε α))) :
    (Transport.pollNext inner = Poll.pending ↔ inner = Poll.pending) ∧
    (Transport.pollNext inner = Poll.ready none ↔ inner = Poll.ready none) ∧
    (∀ v : α, Transport.pollNext inner = Poll.ready (some (Except.ok v)) ↔
       inner = Poll.ready (some (Except.ok v))) ∧
    (∀ E : IoError ε, Transport.pollNext inner = Poll.ready (some (Except.error E)) ↔
       ∃ e : ε, E = ioOther e ∧ inner = Poll.ready (some (Except.error e))) ∧
    (∀ t : Transport (List Nat) (SerdeCodec α ε), t.stream = [] →
       (Transport.pollNextBytes t).1 = Poll.ready none ∧ (Transport.pollNextBytes t).2 = t) := by
  have heof : ∀ t : Transport (List Nat) (SerdeCodec α ε), t.stream = [] →
      (Transport.pollNextBytes t).1 = Poll.ready none ∧ (Transport.pollNextBytes t).2 = t := by
    intro t h
    obtain ⟨f, w, c, st⟩ := t
    simp only at h
    subst h
    exact ⟨rfl, rfl⟩
  rcases inner with _ | o
  · exact ⟨by simp [Transport.pollNext], by simp [Transport.pollNext],
      fun v => by simp [Transport.pollNext], fun E => by simp [Transport.pollNext], heof⟩
  · rcases o with _ | r
    · refine ⟨?_, ?_, ?_, ?_, heof⟩ <;> simp [Transport.pollNext]
    · rcases r with e | v
      · refine ⟨?_, ?_, ?_, ?_, heof⟩ <;> simp [Transport.pollNext, eq_comm]
      · refine ⟨?_, ?_, ?_, ?_, heof⟩ <;> simp [Transport.pollNext]

/-- Witness for C3: a transport whose underlying stream is exhausted
reports a clean end-of-stream and is left unchanged, so further polls
report end-of-stream as well. -/
theorem pollNext_four_outcome_characterization_witness :
    (Transport.fromStreamCodec ([] : List Nat) symmetricalJson).stream = [] ∧
    ((Transport.pollNextBytes (Transport.fromStreamCodec ([] : List Nat) symmetricalJson)).1
        = Poll.ready none ∧
     (Transport.pollNextBytes (Transport.fromStreamCodec ([] : List Nat) symmetricalJson)).2
        = Transport.fromStreamCodec ([] : List Nat) symmetricalJson) :=
  ⟨rfl, (pollNext_four_outcome_characterization JsonError String Poll.pending).2.2.2.2
     (Transport.fromStreamCodec ([] : List Nat) symmetricalJson) rfl⟩

/-- C4: for any value `v` the codec can encode (and decode back),
submitting `v` to the transport's sink, flushing, and then reading from
a peer transport over the same byte stream with the matching codec
yields `v` again. -/
theorem transport_round_trip (α ε : Type) (codec : SerdeCodec α ε) (v : α) (bs : List Nat)
    (hser : codec.serialize v = Except.ok bs)
    (hdes : codec.deserialize bs = Except.ok v)
    (hlen : bs.length ≤ LengthDelimitedCodec.new.maxFrameLen) :
    ∃ t1 t2,
      Transport.startSendBytes (Transport.fromStreamCodec ([] : List Nat) codec) v
        = Except.ok t1 ∧
      Transport.pollFlushBytes t1 = Poll.ready (Except.ok t2) ∧
      (Transport.pollNextBytes (Transport.fromStreamCodec t2.stream codec)).1
        = Poll.ready (some (Except.ok v)) := by
  have henc : LengthDelimitedCodec.new.encode bs = Except.ok (beBytes 4 bs.length ++ bs) := by
    unfold LengthDelimitedCodec.encode
    rw [if_neg (Nat.not_lt.mpr hlen)]
    rfl
  refine ⟨⟨LengthDelimitedCodec.new, beBytes 4 bs.length ++ bs, codec, []⟩,
          ⟨LengthDelimitedCodec.new, [], codec, beBytes 4 bs.length ++ bs⟩, ?_, ?_, ?_⟩
  · simp only [Transport.startSendBytes, Transport.fromStreamCodec, hser, henc,
      List.nil_append]
  · simp only [Transport.pollFlushBytes, List.nil_append]
  · simp only [Transport.pollNextBytes, Transport.fromStreamCodec,
      decodeEof_encoded_frame bs hlen, hdes]

/-- C9: constructing a transport via `from((raw_stream, codec))` wraps
the raw stream in the length-delimited framing substrate with the fixed
4-byte length-prefix discipline, binds the codec, and performs no read
or write on the raw stream: the wrapped stream is the given one
unchanged and the write buffer is empty. -/
theorem construction_wraps_framing_no_io (S C : Type) (s : S) (c : C) :
    (Transport.fromStreamCodec s c).framing = LengthDelimitedCodec.new ∧
    (Transport.fromStreamCodec s c).framing.lengthFieldLen = 4 ∧
    (Transport.fromStreamCodec s c).codec = c ∧
    (Transport.fromStreamCodec s c).get_ref = s ∧
    (Transport.fromStreamCodec s c).writeBuf = [] :=
  ⟨rfl, rfl, rfl, rfl, rfl⟩

/-- Witness for C4: the round trip at the concrete string "Hi", whose
JSON encoding is the four bytes `22 48 69 22`. -/
theorem transport_round_trip_witness :
    (symmetricalJson.serialize "Hi" = Except.ok [34, 72, 105, 34] ∧
     symmetricalJson.deserialize [34, 72, 105, 34] = Except.ok "Hi" ∧
     ([34, 72, 105, 34] : List Nat).length ≤ LengthDelimitedCodec.new.maxFrameLen) ∧
    (∃ t1 t2,
      Transport.startSendBytes (Transport.fromStreamCodec ([] : List Nat) symmetricalJson) "Hi"
        = Except.ok t1 ∧
      Transport.pollFlushBytes t1 = Poll.ready (Except.ok t2) ∧
      (Transport.pollNextBytes (Transport.fromStreamCodec t2.stream symmetricalJson)).1
        = Poll.ready (some (Except.ok "Hi"))) :=
  ⟨⟨rfl, rfl, by decide⟩,
   transport_round_trip String JsonError symmetricalJson "Hi" [34, 72, 105, 34]
     rfl rfl (by decide)⟩

/-- A listener whose first accept poll fails and whose second delivers
a connection: the concrete input refuting the "terminates after an
error" half of C5. -/
def c5Incoming : tcp.Incoming Nat Nat :=
  ⟨⟨[some (Except.error 7), some (Except.ok 42)], Except.ok 0⟩, 0, fun k => k, 0⟩

/-- Counterexample to C5 as stated: after the listener-derived sequence
yields an error for a failed accept, a further poll accepts the next
connection and produces a transport — the sequence is not terminated by
the error. -/
theorem accept_error_not_terminal_counterexample :
    c5Incoming.pollNext.1 = Poll.ready (some (Except.error 7)) ∧
    c5Incoming.pollNext.2.pollNext.1
      = Poll.ready (some (Except.ok
          (Transport.fromStreamCodec 42 (⟨0, 0⟩ : tcp.CodecInstance Nat)))) :=
  ⟨rfl, rfl⟩

/-- C5 amended: an accept failure is surfaced to the caller as an error
item of the sequence, exactly once, and is not skipped: the failed
attempt produces no transport and no codec-factory invocation, and the
poll consumes exactly that one outcome — but the sequence is not
terminated, so subsequent polls continue accepting. -/
theorem accept_error_surfaced_once_not_skipped (ε C : Type) (inc : tcp.Incoming ε C) (e : ε)
    (rest : List (Option (Except ε Nat)))
    (h : inc.listener.polls = some (Except.error e) :: rest) :
    inc.pollNext.1 = Poll.ready (some (Except.error e)) ∧
    inc.pollNext.2.listener.polls = rest ∧
    inc.pollNext.2.invocations = inc.invocations := by
  obtain ⟨⟨polls, la⟩, addr, f, k⟩ := inc
  simp only [tcp.Incoming.pollNext]
  simp only at h
  rw [h]
  exact ⟨rfl, rfl, rfl⟩

/-- Witness for C5's amended claim at the concrete listener
`c5Incoming`. -/
theorem accept_error_surfaced_once_not_skipped_witness :
    c5Incoming.listener.polls = some (Except.error 7) :: [some (Except.ok 42)] ∧
    (c5Incoming.pollNext.1 = Poll.ready (some (Except.error 7)) ∧
     c5Incoming.pollNext.2.listener.polls = [some (Except.ok 42)] ∧
     c5Incoming.pollNext.2.invocations = c5Incoming.invocations) :=
  ⟨rfl, accept_error_surfaced_once_not_skipped Nat Nat c5Incoming 7 [some (Except.ok 42)] rfl⟩

/-- C6: two transports produced by two successful accepts of the same
listener-derived sequence (the second reachable from the first by any
number of polls) hold codec instances constructed by distinct
invocations of the caller-supplied factory: codecs are never reused or
shared across accepted connections. -/
theorem fresh_codec_instance_per_accept (ε C : Type) (a b : tcp.Incoming ε C)
    (t1 t2 : Transport Nat (tcp.CodecInstance C))
    (h1 : a.pollNext.1 = Poll.ready (some (Except.ok t1)))
    (hr : tcp.Reaches a.pollNext.2 b)
    (h2 : b.pollNext.1 = Poll.ready (some (Except.ok t2))) :
    t1.codec.mkIndex ≠ t2.codec.mkIndex := by
  obtain ⟨hm1, hs1⟩ := tcp.pollNext_ok_characterization a t1 h1
  obtain ⟨hm2, _⟩ := tcp.pollNext_ok_characterization b t2 h2
  have hle := tcp.reaches_invocations_le _ _ hr
  omega

/-- A listener delivering two connections, with a factory that always
builds the same codec value: even then the two accepted transports hold
distinct instances. -/
def c6Incoming : tcp.Incoming Nat Nat :=
  ⟨⟨[some (Except.ok 1), some (Except.ok 2)], Except.ok 0⟩, 0, fun _ => 0, 0⟩

/-- Witness for C6 at the concrete listener `c6Incoming`: the first two
accepted transports carry codec instances from factory invocations 0
and 1. -/
theorem fresh_codec_instance_per_accept_witness :
    (c6Incoming.pollNext.1 = Poll.ready (some (Except.ok
        (Transport.fromStreamCodec 1 (⟨0, 0⟩ : tcp.CodecInstance Nat)))) ∧
     c6Incoming.pollNext.2.pollNext.1 = Poll.ready (some (Except.ok
        (Transport.fromStreamCodec 2 (⟨1, 0⟩ : tcp.CodecInstance Nat))))) ∧
    (Transport.fromStreamCodec 1 (⟨0, 0⟩ : tcp.CodecInstance Nat)).codec.mkIndex ≠
      (Transport.fromStreamCodec 2 (⟨1, 0⟩ : tcp.CodecInstance Nat)).codec.mkIndex :=
  ⟨⟨rfl, rfl⟩,
   fresh_codec_instance_per_accept Nat Nat c6Incoming c6Incoming.pollNext.2 _ _
     rfl (tcp.Reaches.refl _) rfl⟩

/-- C7: `listen(address, codec_factory)` fails immediately with the
bind error (producing no listener handle) if binding fails, and on
success returns a handle whose `local_addr` accessor exposes the
concrete bound address captured at bind time. -/
theorem listen_bind_fail_fast_and_local_addr (ε C : Type) :
    (∀ (e : ε) (codecFn : Nat → C), tcp.listen (Except.error e) codecFn = Except.error e) ∧
    (∀ (l : tcp.TcpListenerM ε) (a : Nat) (codecFn : Nat → C),
       l.localAddrResult = Except.ok a →
       tcp.listen (Except.ok l) codecFn = Except.ok ⟨l, a, codecFn, 0⟩ ∧
       (⟨l, a, codecFn, 0⟩ : tcp.Incoming ε C).local_addr = a) := by
  refine ⟨fun e f => rfl, fun l a f h => ⟨?_, rfl⟩⟩
  simp only [tcp.listen, h]

/-- A listener whose `local_addr` is 5, for the C7 witness. -/
def c7Listener : tcp.TcpListenerM Nat :=
  ⟨[], Except.ok 5⟩

/-- Witness for C7: a failed bind with error 3 returns error 3; a
successful bind of `c7Listener` yields a handle exposing address 5. -/
theorem listen_bind_fail_fast_and_local_addr_witness :
    (tcp.listen (Except.error 3) (fun _ => (0 : Nat))
       = (Except.error 3 : Except Nat (tcp.Incoming Nat Nat))) ∧
    (c7Listener.localAddrResult = Except.ok 5 ∧
     (tcp.listen (Except.ok c7Listener) (fun _ => (0 : Nat))
        = Except.ok ⟨c7Listener, 5, fun _ => 0, 0⟩ ∧
      (⟨c7Listener, 5, fun _ => 0, 0⟩ : tcp.Incoming Nat Nat).local_addr = 5)) :=
  ⟨(listen_bind_fail_fast_and_local_addr Nat Nat).1 3 (fun _ => 0),
   rfl,
   (listen_bind_fail_fast_and_local_addr Nat Nat).2 c7Listener 5 (fun _ => 0) rfl⟩

/-- C8: `connect(address, codec)` makes exactly one connection attempt:
on success it returns a transport wrapping that very connection with
the given codec; on failure it returns the connection error once,
unchanged. -/
theorem connect_single_attempt (ε C : Type) (e : ε) (s : Nat) (c : C) :
    tcp.connect (Except.error e) c = (Except.error e : Except ε (Transport Nat C)) ∧
    tcp.connect (Except.ok s : Except ε Nat) c = Except.ok (Transport.fromStreamCodec s c) ∧
    (Transport.fromStreamCodec s c).get_ref = s ∧
    (Transport.fromStreamCodec s c).codec = c :=
  ⟨rfl, rfl, rfl, rfl⟩

/-- C10: every error value surfaced by the transport's `Stream` and
`Sink` operations has error kind exactly `io::ErrorKind::Other`,
whichever layer originally failed. -/
theorem all_surfaced_errors_kind_other (ε α : Type) :
    (∀ (inner : Poll (Option (Except ε α))) (E : IoError ε),
       Transport.pollNext inner = Poll.ready (some (Except.error E)) →
       E.kind = IoErrorKind.other) ∧
    (∀ (r : Except ε Unit) (E : IoError ε),
       Transport.startSend r = Except.error E → E.kind = IoErrorKind.other) ∧
    (∀ (p : Poll (Except ε Unit)) (E : IoError ε),
       Transport.pollReady p = Poll.ready (Except.error E) → E.kind = IoErrorKind.other) ∧
    (∀ (p : Poll (Except ε Unit)) (E : IoError ε),
       Transport.pollFlush p = Poll.ready (Except.error E) → E.kind = IoErrorKind.other) ∧
    (∀ (p : Poll (Except ε Unit)) (E : IoError ε),
       Transport.pollClose p = Poll.ready (Except.error E) → E.kind = IoErrorKind.other) := by
  have hconvert : ∀ (p : Poll (Except ε Unit)) (E : IoError ε),
      convert p = Poll.ready (Except.error E) → E.kind = IoErrorKind.other := by
    intro p E h
    rcases p with _ | r
    · exact absurd h (by simp [convert])
    · rcases r with e | u
      · simp only [convert] at h
        injection h with h1
        injection h1 with h2
        rw [← h2]
        rfl
      · exact absurd h (by simp [convert])
  refine ⟨?_, ?_, hconvert, hconvert, hconvert⟩
  · intro inner E h
    rcases inner with _ | o
    · exact absurd h (by simp [Transport.pollNext])
    · rcases o with _ | r
      · exact absurd h (by simp [Transport.pollNext])
      · rcases r with e | v
        · simp only [Transport.pollNext] at h
          injection h with h1
          injection h1 with h2
          injection h2 with h3
          rw [← h3]
          rfl
        · exact absurd h (by simp [Transport.pollNext])
  · intro r E h
    rcases r with e | u
    · simp only [Transport.startSend] at h
      injection h with h1
      rw [← h1]
      rfl
    · exact absurd h (by simp [Transport.startSend])

/-- Witness for C10: the wrapped error of a failed inner poll, of a
failed `start_send`, and of failed readiness/flush/close polls all have
kind `Other`. -/
theorem all_surfaced_errors_kind_other_witness :
    (ioOther (0 : Nat)).kind = IoErrorKind.other :=
  (all_surfaced_errors_kind_other Nat Nat).1
    (Poll.ready (some (Except.error 0))) (ioOther 0) rfl

end SerdeTransport
